import Mathlib

/-!
# Verification of the Boggle board core

Shallow embedding of `boggleboard.py`, `bogglecube.py` and `gambler.py`.

`BoggleCube` objects in the source are mutable and aliased: the board's flat
cube list, the 4x4 grid and the selection machinery all hold references to the
same sixteen objects.  The embedding therefore keeps a heap
`cubeData : List CubeState` indexed by cube id (ids are assigned once, at
construction, as 0..15 and never change), while `cubes`, `cube_grid` and
`selected_cubes` store cube ids, playing the role of object references.
-/

namespace Boggle

/-- The three cube statuses: "unselected", "selected", "most recently selected"
(`bogglecube.py`). -/
inductive Status where
  | unselected
  | selected
  | mostRecentlySelected
  deriving DecidableEq, Repr

/-- The mutable per-cube state of a `BoggleCube`: its six faces, the letter on
its top face, and its selection status.  The cube id is the heap index. -/
structure CubeState where
  faces : List String
  letter : String
  status : Status
  deriving DecidableEq, Repr

/-- Default used by `List.getD` heap reads; real reads are always in range. -/
def defaultCube : CubeState :=
  { faces := [], letter := "", status := Status.unselected }

/-- The sixteen standard letter cubes (`CUBE_FACES` in `boggleboard.py`). -/
def CUBE_FACES : List (List String) :=
  [["A", "A", "C", "I", "O", "T"],
   ["T", "Y", "A", "B", "I", "L"],
   ["J", "M", "O", "Qu", "A", "B"],
   ["A", "C", "D", "E", "M", "P"],
   ["A", "C", "E", "L", "S", "R"],
   ["A", "D", "E", "N", "V", "Z"],
   ["A", "H", "M", "O", "R", "S"],
   ["B", "F", "I", "O", "R", "X"],
   ["D", "E", "N", "O", "S", "W"],
   ["D", "K", "N", "O", "T", "U"],
   ["E", "E", "F", "H", "I", "Y"],
   ["E", "G", "I", "N", "T", "V"],
   ["E", "G", "K", "L", "U", "Y"],
   ["E", "H", "I", "N", "P", "S"],
   ["E", "L", "P", "S", "T", "U"],
   ["G", "I", "L", "R", "U", "W"]]

/-- The dice of `gambler.py`.  `SixSidedDie.roll` returns `randint(0, 5)`;
the randomness is modelled as a stream of values in `[0, 6)`, one per call.
`PredictableDie` always returns its configured value. -/
inductive Die where
  | sixSided (rolls : Nat → Fin 6)
  | predictableDie (always : Nat)

/-- The result of the `k`-th call to `die.roll()`. -/
def Die.roll : Die → Nat → Nat
  | Die.sixSided f, k => (f k).val
  | Die.predictableDie a, _ => a

/-- The shufflers of `gambler.py`.  `Shuffler` (the production class) calls
`random.shuffle` on a copy; the random permutation the stdlib picks is
modelled as a list of source indices `randPerm` (a permutation of
`range n` for an `n`-element input).  `PredictableShuffler` reverses,
`NonShuffler` returns a copy in the original order. -/
inductive Shuffler where
  | randomShuffler (randPerm : List Nat)
  | predictableShuffler
  | nonShuffler

/-- `shuffle` of each variant.  All of them return a new list and leave the
input untouched (the embedding is pure, so the source's no-mutation contract
is inherent). -/
def Shuffler.shuffle {α : Type} [Inhabited α] : Shuffler → List α → List α
  | Shuffler.randomShuffler rp, xs => rp.map fun i => xs.getD i default
  | Shuffler.predictableShuffler, xs => xs.reverse
  | Shuffler.nonShuffler, xs => xs

/-- `BoggleCube.roll`: take the die's index and show the face at that index. -/
def rollCube (die : Die) (k : Nat) (c : CubeState) : CubeState :=
  { c with letter := c.faces.getD (die.roll k) "" }

/-- The board state (`BoggleBoard` in `boggleboard.py`).  `locations` is the
`_locations` dict, observed only through key lookup, so it is modelled as an
option-valued function from cube ids; the source's re-sorting of the dict's keys
inside `update_grid_locations` changes iteration order only, never lookup. -/
structure BoggleBoard where
  lexicon : List String
  cubeData : List CubeState
  cubes : List Nat
  cube_grid : List (List Nat)
  locations : Nat → Option (Nat × Nat)
  selected_cubes : List Nat
  word_so_far : String
  completed_words : List String

/-- Read `grid[row][col]` (a cube id). -/
def gridAt (grid : List (List Nat)) (row col : Nat) : Nat :=
  (grid.getD row []).getD col 0

/-- The nested-list rebuild of `_cube_grid`: row-major, four cubes per row
(`for i in range(0, len(cubes), 4)` over the sixteen-cube list). -/
def buildGrid (cubes : List Nat) : List (List Nat) :=
  (List.range 4).map fun i => (List.range 4).map fun j => cubes.getD (4 * i + j) 0

/-- The row-major enumeration of the two nested `for row ... for col ...`
loops that fill `_locations`. -/
def gridPositions : List (Nat × Nat) :=
  (List.range 4).flatMap fun r => (List.range 4).map fun c => (r, c)

/-- The rebuild of `_locations`: write `locations[grid[row][col].id] = (row, col)`
for each position in loop order, later writes overriding earlier ones (dict
assignment semantics). -/
def buildLocations (grid : List (List Nat)) : Nat → Option (Nat × Nat) :=
  gridPositions.foldl
    (fun loc rc => fun k => if k = gridAt grid rc.1 rc.2 then some rc else loc k)
    (fun _ => none)

/-- `BoggleBoard.__init__`: sixteen cubes in face-table order (cube `i` gets
`CUBE_FACES[i]`, shows face 0, starts unselected), grid and locations built
exactly as in `update_grid_locations`, empty path/word/completed-words. -/
def boggleBoard (lexicon : List String) : BoggleBoard :=
  { lexicon := lexicon
    cubeData := CUBE_FACES.map fun f =>
      { faces := f, letter := f.getD 0 "", status := Status.unselected }
    cubes := List.range 16
    cube_grid := buildGrid (List.range 16)
    locations := buildLocations (buildGrid (List.range 16))
    selected_cubes := []
    word_so_far := ""
    completed_words := [] }

/-- `BoggleBoard.get_cube(row, col)` (as a cube id / reference). -/
def get_cube (b : BoggleBoard) (row col : Nat) : Nat :=
  gridAt b.cube_grid row col

/-- `BoggleBoard.update_grid_locations`. -/
def update_grid_locations (b : BoggleBoard) : BoggleBoard :=
  { b with
    cube_grid := buildGrid b.cubes
    locations := buildLocations (buildGrid b.cubes) }

/-- The `for cube in self._cubes: cube.roll(die)` loop of `shake_cubes`:
the `k`-th iteration consumes the `k`-th die roll. -/
def rollCubesFrom (die : Die) : Nat → List Nat → List CubeState → List CubeState
  | _, [], heap => heap
  | k, id :: rest, heap =>
      rollCubesFrom die (k + 1) rest
        (heap.set id (rollCube die k (heap.getD id defaultCube)))

/-- `BoggleBoard.shake_cubes`: shuffle the flat cube list, rebuild grid and
locations, then roll every cube in the new order. -/
def shake_cubes (s : Shuffler) (die : Die) (b : BoggleBoard) : BoggleBoard :=
  let b1 := update_grid_locations { b with cubes := s.shuffle b.cubes }
  { b1 with cubeData := rollCubesFrom die 0 b1.cubes b1.cubeData }

/-- `BoggleBoard.adjacent(cube1, cube2)`, by cube id: same row and columns one
apart, same column and rows one apart, or both coordinates one apart.  A
missing location is a `KeyError` in the source; it yields `false` here and is
never reached on real boards. -/
def adjacent (b : BoggleBoard) (id1 id2 : Nat) : Bool :=
  match b.locations id1, b.locations id2 with
  | some (r1, c1), some (r2, c2) =>
      (r1 == r2 && ((c2 : Int) - (c1 : Int)).natAbs == 1) ||
      ((c1 == c2 && ((r2 : Int) - (r1 : Int)).natAbs == 1) ||
       (((r2 : Int) - (r1 : Int)).natAbs == 1 && ((c2 : Int) - (c1 : Int)).natAbs == 1))
  | _, _ => false

/-- `BoggleCube.set_status` on the heap (the status written is always one of
the three valid ones, so the setter's validity check always passes). -/
def setStatus (heap : List CubeState) (id : Nat) (s : Status) : List CubeState :=
  heap.set id { heap.getD id defaultCube with status := s }

/-- `BoggleBoard.unselect_all`: set every cube in `_cubes` to unselected (the
source assigns `cube._status` directly; the heap write is the same). -/
def unselect_all (b : BoggleBoard) : BoggleBoard :=
  { b with
    cubeData := b.cubes.foldl (fun h id => setStatus h id Status.unselected) b.cubeData }

/-- `BoggleBoard.reset_word`: clear the word, clear the path, unselect all. -/
def reset_word (b : BoggleBoard) : BoggleBoard :=
  unselect_all { b with word_so_far := "", selected_cubes := [] }

/-- `BoggleBoard.report_selection(cube_id)`.  The cube's location is read from
the dict (a missing id raises `KeyError` in the source and leaves the board
unchanged here), then the cube reference is fetched from the grid. -/
def report_selection (b : BoggleBoard) (cube_id : Nat) : BoggleBoard :=
  match b.locations cube_id with
  | none => b
  | some (row, col) =>
    let curr := get_cube b row col
    let currState := b.cubeData.getD curr defaultCube
    if b.selected_cubes = [] then
      { b with
        selected_cubes := b.selected_cubes ++ [cube_id]
        word_so_far := b.word_so_far ++ currState.letter
        cubeData := setStatus b.cubeData curr Status.mostRecentlySelected }
    else if currState.status = Status.unselected then
      match b.selected_cubes.getLast? with
      | none => b
      | some prev_id =>
        match b.locations prev_id with
        | none => b
        | some (prev_row, prev_col) =>
          let prev := get_cube b prev_row prev_col
          if adjacent b curr prev then
            { b with
              selected_cubes := b.selected_cubes ++ [cube_id]
              word_so_far := b.word_so_far ++ currState.letter
              cubeData := setStatus (setStatus b.cubeData curr Status.mostRecentlySelected)
                prev Status.selected }
          else b
    else if currState.status = Status.mostRecentlySelected then
      if b.word_so_far ∈ b.lexicon then
        reset_word { b with completed_words := b.completed_words ++ [b.word_so_far] }
      else
        reset_word b
    else b

/-- The commands the input layer can send to the board. -/
inductive Op where
  | sel (id : Nat)
  | reset

/-- Run one command. -/
def applyOp (b : BoggleBoard) : Op → BoggleBoard
  | Op.sel id => report_selection b id
  | Op.reset => reset_word b

/-- Run a sequence of commands. -/
def runOps (b : BoggleBoard) (ops : List Op) : BoggleBoard :=
  ops.foldl applyOp b

/-- The word spelled by a selection path: the letters of its cubes,
concatenated in path order. -/
def pathWord (heap : List CubeState) (path : List Nat) : String :=
  path.foldl (fun w id => w ++ (heap.getD id defaultCube).letter) ""

/-- The status a cube should have, as a function of the selection path:
the path's last element is most recently selected, the earlier path elements
are selected, everything else is unselected. -/
def statusSpec (path : List Nat) (id : Nat) : Status :=
  if path.getLast? = some id then Status.mostRecentlySelected
  else if id ∈ path.dropLast then Status.selected
  else Status.unselected

/-- Chebyshev distance of two grid positions, written from the spec's words
for comparison with the source's `adjacent`. -/
def chebyshevDist (p q : Nat × Nat) : Nat :=
  max ((q.1 : Int) - (p.1 : Int)).natAbs ((q.2 : Int) - (p.2 : Int)).natAbs

/-! ## List and dictionary helper lemmas -/

theorem getD_range_map {α : Type} (xs : List α) (d : α) :
    (List.range xs.length).map (fun i => xs.getD i d) = xs := by
  induction xs with
  | nil => rfl
  | cons x xs ih =>
    rw [List.length_cons, List.range_succ_eq_map, List.map_cons, List.map_map]
    simp only [Function.comp, List.getD_cons_succ, List.getD_cons_zero]
    exact congrArg (x :: ·) ih

theorem getLast?_mem {α : Type} {l : List α} {a : α} (h : l.getLast? = some a) :
    a ∈ l := by
  cases l with
  | nil => simp at h
  | cons x xs =>
    rw [List.getLast?_eq_getLast _ (by simp)] at h
    exact (Option.some_injective _ h) ▸ List.getLast_mem _

theorem mem_iff_dropLast_or_getLast {α : Type} (l : List α) (a : α) :
    a ∈ l ↔ a ∈ l.dropLast ∨ l.getLast? = some a := by
  rcases List.eq_nil_or_concat l with rfl | ⟨L, b, rfl⟩
  · simp
  · simp only [List.concat_eq_append, List.dropLast_concat, List.getLast?_concat,
      List.mem_append, List.mem_singleton, Option.some_inj]
    constructor
    · rintro (h | rfl)
      · exact Or.inl h
      · exact Or.inr rfl
    · rintro (h | rfl)
      · exact Or.inl h
      · exact Or.inr rfl

/-- A dict built by a left fold of key overrides looks up to the last write
for the key, falling back to the initial map. -/
theorem foldl_override_apply (l : List (Nat × Nat)) (key : Nat × Nat → Nat)
    (f0 : Nat → Option (Nat × Nat)) (k : Nat) :
    (l.foldl (fun loc rc => fun j => if j = key rc then some rc else loc j) f0) k
      = (l.reverse.find? (fun rc => k == key rc)).or (f0 k) := by
  induction l generalizing f0 with
  | nil => simp
  | cons x xs ih =>
    rw [List.foldl_cons, ih, List.reverse_cons, List.find?_append, Option.or_assoc]
    congr 1
    by_cases h : k = key x
    · simp [List.find?, h]
    · have hb : (k == key x) = false := beq_eq_false_iff_ne.mpr h
      simp [List.find?, hb, h]

theorem find?_key_eq_some_iff (l : List (Nat × Nat)) (key : Nat × Nat → Nat)
    (hnd : (l.map key).Nodup) (rc : Nat × Nat) (k : Nat) :
    l.find? (fun e => k == key e) = some rc ↔ rc ∈ l ∧ key rc = k := by
  constructor
  · intro h
    refine ⟨List.mem_of_find?_eq_some h, ?_⟩
    have h2 := List.find?_some h
    have h3 : (k == key rc) = true := h2
    exact (eq_of_beq h3).symm
  · rintro ⟨hmem, hk⟩
    have hsome : (l.find? (fun e => k == key e)).isSome := by
      rw [List.find?_isSome]
      refine ⟨rc, hmem, ?_⟩
      show (k == key rc) = true
      rw [hk]; exact beq_self_eq_true k
    obtain ⟨e, he⟩ := Option.isSome_iff_exists.mp hsome
    have h4 := List.find?_some he
    have h5 : (k == key e) = true := h4
    have hke : key e = k := (eq_of_beq h5).symm
    have : e = rc :=
      List.inj_on_of_nodup_map hnd (List.mem_of_find?_eq_some he) hmem (by rw [hke, hk])
    rwa [this] at he

set_option maxRecDepth 4000 in
theorem mem_gridPositions (p : Nat × Nat) :
    p ∈ gridPositions ↔ p.1 < 4 ∧ p.2 < 4 := by
  obtain ⟨r, c⟩ := p
  simp only [gridPositions, List.mem_flatMap, List.mem_map, List.mem_range]
  constructor
  · rintro ⟨r', hr', c', hc', heq⟩
    obtain ⟨rfl, rfl⟩ := Prod.mk.injEq .. ▸ heq
    exact ⟨hr', hc'⟩
  · rintro ⟨hr, hc⟩
    exact ⟨r, hr, c, hc, rfl⟩

set_option maxRecDepth 4000 in
theorem gridAt_buildGrid (cubes : List Nat) (r c : Nat) (hr : r < 4) (hc : c < 4) :
    gridAt (buildGrid cubes) r c = cubes.getD (4 * r + c) 0 := by
  interval_cases r <;> interval_cases c <;> rfl

set_option maxRecDepth 8000 in
theorem gridPositions_keys (cubes : List Nat) :
    gridPositions.map (fun rc => gridAt (buildGrid cubes) rc.1 rc.2)
      = (List.range 16).map (fun i => cubes.getD i 0) := rfl

/-- The sixteen grid cells of a sixteen-cube board hold exactly the cubes, in
flat order. -/
theorem gridPositions_keys_eq (cubes : List Nat) (hlen : cubes.length = 16) :
    gridPositions.map (fun rc => gridAt (buildGrid cubes) rc.1 rc.2) = cubes := by
  rw [gridPositions_keys, ← hlen, getD_range_map]

/-- Characterization of the locations dict: for a board whose flat cube list
is a permutation of the sixteen ids, `locations[id] == (r, c)` holds exactly
when `(r, c)` is in range and the grid holds `id` there. -/
theorem buildLocations_lookup (cubes : List Nat) (hperm : cubes.Perm (List.range 16))
    (id r c : Nat) :
    buildLocations (buildGrid cubes) id = some (r, c) ↔
      r < 4 ∧ c < 4 ∧ cubes.getD (4 * r + c) 0 = id := by
  have hlen : cubes.length = 16 := by simpa using hperm.length_eq
  have hnd : cubes.Nodup := hperm.nodup_iff.mpr (List.nodup_range 16)
  have hkeys : (gridPositions.map fun rc => gridAt (buildGrid cubes) rc.1 rc.2).Nodup := by
    rw [gridPositions_keys_eq cubes hlen]; exact hnd
  have hkeysrev :
      (gridPositions.reverse.map fun rc => gridAt (buildGrid cubes) rc.1 rc.2).Nodup := by
    rw [List.map_reverse, List.nodup_reverse]; exact hkeys
  rw [buildLocations, foldl_override_apply, Option.or_none,
    find?_key_eq_some_iff _ _ hkeysrev, List.mem_reverse]
  constructor
  · rintro ⟨hmem, hkey⟩
    have hb := (mem_gridPositions (r, c)).mp hmem
    refine ⟨hb.1, hb.2, ?_⟩
    rw [← gridAt_buildGrid cubes r c hb.1 hb.2]; exact hkey
  · rintro ⟨hr, hc, hid⟩
    exact ⟨(mem_gridPositions (r, c)).mpr ⟨hr, hc⟩,
      by rw [gridAt_buildGrid cubes r c hr hc]; exact hid⟩

/-- Every cube id on a sixteen-cube board has a location, and the grid holds
that cube at it. -/
theorem locations_of_lt (cubes : List Nat) (hperm : cubes.Perm (List.range 16))
    (id : Nat) (hid : id < 16) :
    ∃ r c, r < 4 ∧ c < 4 ∧ buildLocations (buildGrid cubes) id = some (r, c) ∧
      gridAt (buildGrid cubes) r c = id := by
  have hlen : cubes.length = 16 := by simpa using hperm.length_eq
  have hmem : id ∈ cubes := hperm.mem_iff.mpr (List.mem_range.mpr hid)
  obtain ⟨n, hn, hget⟩ := List.getElem_of_mem hmem
  have hn16 : n < 16 := by omega
  refine ⟨n / 4, n % 4, by omega, by omega, ?_, ?_⟩
  · rw [buildLocations_lookup cubes hperm]
    refine ⟨by omega, by omega, ?_⟩
    rw [List.getD_eq_getElem _ _ (by omega : 4 * (n / 4) + n % 4 < cubes.length)]
    have : 4 * (n / 4) + n % 4 = n := by omega
    simp_rw [this]; exact hget
  · rw [gridAt_buildGrid cubes _ _ (by omega) (by omega),
      List.getD_eq_getElem _ _ (by omega : 4 * (n / 4) + n % 4 < cubes.length)]
    have : 4 * (n / 4) + n % 4 = n := by omega
    simp_rw [this]; exact hget

/-- Looking up a cube id in the locations dict and reading the grid there
gives back the same id. -/
theorem gridAt_of_lookup (cubes : List Nat) (hperm : cubes.Perm (List.range 16))
    {id r c : Nat} (h : buildLocations (buildGrid cubes) id = some (r, c)) :
    gridAt (buildGrid cubes) r c = id := by
  obtain ⟨hr, hc, hid⟩ := (buildLocations_lookup cubes hperm id r c).mp h
  rw [gridAt_buildGrid cubes r c hr hc]; exact hid

theorem lt_16_of_lookup (cubes : List Nat) (hperm : cubes.Perm (List.range 16))
    {id r c : Nat} (h : buildLocations (buildGrid cubes) id = some (r, c)) :
    id < 16 := by
  have hlen : cubes.length = 16 := by simpa using hperm.length_eq
  obtain ⟨hr, hc, hid⟩ := (buildLocations_lookup cubes hperm id r c).mp h
  have : cubes.getD (4 * r + c) 0 ∈ cubes := by
    rw [List.getD_eq_getElem _ _ (by omega : 4 * r + c < cubes.length)]
    exact List.getElem_mem _
  rw [hid] at this
  exact List.mem_range.mp (hperm.mem_iff.mp this)

/-! ## Heap (cube state) lemmas -/

theorem getD_set_self (h : List CubeState) (i : Nat) (c : CubeState) (hi : i < h.length) :
    (h.set i c).getD i defaultCube = c := by
  rw [List.getD_eq_getElem?_getD, List.getElem?_set]
  simp [hi]

theorem getD_set_other (h : List CubeState) (i : Nat) (c : CubeState) (j : Nat)
    (hij : i ≠ j) : (h.set i c).getD j defaultCube = h.getD j defaultCube := by
  rw [List.getD_eq_getElem?_getD, List.getElem?_set, if_neg hij, ← List.getD_eq_getElem?_getD]

theorem getD_set_ite (h : List CubeState) (i : Nat) (c : CubeState) (j : Nat) :
    (h.set i c).getD j defaultCube =
      if i = j ∧ i < h.length then c else h.getD j defaultCube := by
  by_cases hij : i = j
  · subst hij
    by_cases hi : i < h.length
    · rw [getD_set_self h i c hi, if_pos ⟨rfl, hi⟩]
    · rw [List.set_eq_of_length_le (by omega), if_neg (fun hc => hi hc.2)]
  · rw [getD_set_other h i c j hij, if_neg (fun hc => hij hc.1)]

theorem setStatus_length (h : List CubeState) (id : Nat) (s : Status) :
    (setStatus h id s).length = h.length := List.length_set ..

theorem setStatus_getD (h : List CubeState) (id : Nat) (s : Status) (j : Nat) :
    (setStatus h id s).getD j defaultCube =
      if id = j ∧ id < h.length then { h.getD id defaultCube with status := s }
      else h.getD j defaultCube := getD_set_ite ..

theorem setStatus_letter (h : List CubeState) (id : Nat) (s : Status) (j : Nat) :
    ((setStatus h id s).getD j defaultCube).letter = (h.getD j defaultCube).letter := by
  rw [setStatus_getD]
  split
  · next hc => rw [← hc.1]
  · rfl

theorem setStatus_faces (h : List CubeState) (id : Nat) (s : Status) (j : Nat) :
    ((setStatus h id s).getD j defaultCube).faces = (h.getD j defaultCube).faces := by
  rw [setStatus_getD]
  split
  · next hc => rw [← hc.1]
  · rfl

theorem setStatus_status (h : List CubeState) (id : Nat) (s : Status) (j : Nat)
    (hid : id < h.length) :
    ((setStatus h id s).getD j defaultCube).status =
      if id = j then s else (h.getD j defaultCube).status := by
  rw [setStatus_getD]
  by_cases hij : id = j
  · rw [if_pos ⟨hij, hid⟩, if_pos hij]
  · rw [if_neg (fun hc => hij hc.1), if_neg hij]

/-! ## unselect_all fold lemmas -/

theorem unselectFold_length (l : List Nat) (h : List CubeState) :
    (l.foldl (fun h id => setStatus h id Status.unselected) h).length = h.length := by
  induction l generalizing h with
  | nil => rfl
  | cons x xs ih => rw [List.foldl_cons, ih, setStatus_length]

theorem unselectFold_letter (l : List Nat) (h : List CubeState) (j : Nat) :
    ((l.foldl (fun h id => setStatus h id Status.unselected) h).getD j defaultCube).letter
      = (h.getD j defaultCube).letter := by
  induction l generalizing h with
  | nil => rfl
  | cons x xs ih => rw [List.foldl_cons, ih, setStatus_letter]

theorem unselectFold_faces (l : List Nat) (h : List CubeState) (j : Nat) :
    ((l.foldl (fun h id => setStatus h id Status.unselected) h).getD j defaultCube).faces
      = (h.getD j defaultCube).faces := by
  induction l generalizing h with
  | nil => rfl
  | cons x xs ih => rw [List.foldl_cons, ih, setStatus_faces]

theorem unselectFold_not_mem (l : List Nat) (h : List CubeState) (j : Nat) (hj : j ∉ l) :
    (l.foldl (fun h id => setStatus h id Status.unselected) h).getD j defaultCube
      = h.getD j defaultCube := by
  induction l generalizing h with
  | nil => rfl
  | cons x xs ih =>
    have hx : j ≠ x := fun hc => hj (hc ▸ List.mem_cons_self x xs)
    have hxs : j ∉ xs := fun hc => hj (List.mem_cons_of_mem x hc)
    rw [List.foldl_cons, ih _ hxs, setStatus, getD_set_other _ _ _ _ (fun hc => hx hc.symm)]

theorem unselectFold_status_mem (l : List Nat) (h : List CubeState) (j : Nat)
    (hj : j < h.length) (hmem : j ∈ l) :
    ((l.foldl (fun h id => setStatus h id Status.unselected) h).getD j defaultCube).status
      = Status.unselected := by
  induction l generalizing h with
  | nil => simp at hmem
  | cons x xs ih =>
    rw [List.foldl_cons]
    by_cases hx : j ∈ xs
    · exact ih _ (by rw [setStatus_length]; exact hj) hx
    · have hjx : j = x := by
        rcases List.mem_cons.mp hmem with h1 | h1
        · exact h1
        · exact absurd h1 hx
      subst hjx
      rw [unselectFold_not_mem _ _ _ hx, setStatus, getD_set_self _ _ _ hj]

/-! ## rollCubesFrom lemmas -/

theorem rollCubesFrom_length (d : Die) (l : List Nat) (n : Nat) (h : List CubeState) :
    (rollCubesFrom d n l h).length = h.length := by
  induction l generalizing n h with
  | nil => rfl
  | cons x xs ih => rw [rollCubesFrom, ih, List.length_set]

theorem rollCubesFrom_status (d : Die) (l : List Nat) (n : Nat) (h : List CubeState) (j : Nat) :
    ((rollCubesFrom d n l h).getD j defaultCube).status = (h.getD j defaultCube).status := by
  induction l generalizing n h with
  | nil => rfl
  | cons x xs ih =>
    rw [rollCubesFrom, ih, getD_set_ite]
    split
    · next hc => rw [← hc.1]; rfl
    · rfl

theorem rollCubesFrom_faces (d : Die) (l : List Nat) (n : Nat) (h : List CubeState) (j : Nat) :
    ((rollCubesFrom d n l h).getD j defaultCube).faces = (h.getD j defaultCube).faces := by
  induction l generalizing n h with
  | nil => rfl
  | cons x xs ih =>
    rw [rollCubesFrom, ih, getD_set_ite]
    split
    · next hc => rw [← hc.1]; rfl
    · rfl

theorem rollCubesFrom_not_mem (d : Die) (l : List Nat) (n : Nat) (h : List CubeState)
    (j : Nat) (hj : j ∉ l) :
    (rollCubesFrom d n l h).getD j defaultCube = h.getD j defaultCube := by
  induction l generalizing n h with
  | nil => rfl
  | cons x xs ih =>
    have hx : j ≠ x := fun hc => hj (hc ▸ List.mem_cons_self x xs)
    have hxs : j ∉ xs := fun hc => hj (List.mem_cons_of_mem x hc)
    rw [rollCubesFrom, ih _ _ hxs, getD_set_other _ _ _ _ (fun hc => hx hc.symm)]

/-- After the roll loop, the cube in position `k` of the iteration order shows
the face selected by the `(n + k)`-th die roll. -/
theorem rollCubesFrom_letter (d : Die) (l : List Nat) (hnd : l.Nodup) (n : Nat)
    (h : List CubeState) (k : Nat) (hk : k < l.length) (hlt : l.getD k 0 < h.length) :
    ((rollCubesFrom d n l h).getD (l.getD k 0) defaultCube).letter
      = ((h.getD (l.getD k 0) defaultCube).faces).getD (d.roll (n + k)) "" := by
  induction l generalizing n h k with
  | nil => simp at hk
  | cons x xs ih =>
    obtain ⟨hx, hxs⟩ := List.nodup_cons.mp hnd
    cases k with
    | zero =>
      rw [List.getD_cons_zero] at hlt ⊢
      rw [rollCubesFrom, rollCubesFrom_not_mem _ _ _ _ _ hx, getD_set_self _ _ _ hlt]
      rfl
    | succ k =>
      rw [List.getD_cons_succ] at hlt ⊢
      have hk' : k < xs.length := by simpa using hk
      have hmem : xs.getD k 0 ∈ xs := by
        rw [List.getD_eq_getElem _ _ hk']
        exact List.getElem_mem hk'
      have hne : x ≠ xs.getD k 0 := fun hc => hx (hc ▸ hmem)
      rw [rollCubesFrom]
      have hrec := ih hxs (n + 1)
        (h.set x (rollCube d n (h.getD x defaultCube))) k hk'
        (by rw [List.length_set]; exact hlt)
      rw [hrec, getD_set_other _ _ _ _ hne]
      have harith : n + 1 + k = n + (k + 1) := by omega
      rw [harith]

/-! ## pathWord and statusSpec lemmas -/

theorem pathWord_eq_join (h : List CubeState) (p : List Nat) :
    pathWord h p = String.join (p.map fun id => (h.getD id defaultCube).letter) := by
  rw [pathWord]
  exact (List.foldl_map (fun id => (h.getD id defaultCube).letter)
    (fun r s => r ++ s) p "").symm

theorem pathWord_concat (h : List CubeState) (p : List Nat) (x : Nat) :
    pathWord h (p ++ [x]) = pathWord h p ++ (h.getD x defaultCube).letter := by
  rw [pathWord, List.foldl_append]
  rfl

theorem pathWord_congr (h1 h2 : List CubeState) (p : List Nat)
    (hl : ∀ id ∈ p, (h1.getD id defaultCube).letter = (h2.getD id defaultCube).letter) :
    pathWord h1 p = pathWord h2 p := by
  rw [pathWord_eq_join, pathWord_eq_join]
  congr 1
  exact List.map_congr_left hl

theorem statusSpec_not_mem (p : List Nat) (id : Nat) (h : id ∉ p) :
    statusSpec p id = Status.unselected := by
  rw [statusSpec, if_neg, if_neg]
  · exact fun hc => h ((mem_iff_dropLast_or_getLast p id).mpr (Or.inl hc))
  · exact fun hc => h ((mem_iff_dropLast_or_getLast p id).mpr (Or.inr hc))

theorem statusSpec_mem_ne (p : List Nat) (id : Nat) (hmem : id ∈ p) :
    statusSpec p id ≠ Status.unselected := by
  intro hc
  rw [statusSpec] at hc
  split at hc
  · simp at hc
  · split at hc
    · simp at hc
    · next h1 h2 =>
      rcases (mem_iff_dropLast_or_getLast p id).mp hmem with h3 | h3
      · exact h2 h3
      · exact h1 h3

theorem statusSpec_getLast (p : List Nat) (id : Nat) (h : p.getLast? = some id) :
    statusSpec p id = Status.mostRecentlySelected := by
  rw [statusSpec, if_pos h]

/-! ## The selection state machine invariant -/

/-- The invariant of reachable board states: the flat cube list is a
permutation of the sixteen ids, grid and locations are the rebuilds from it,
the heap has sixteen cubes, the selection path holds distinct valid ids, every
cube's status is determined by its position in the path, and `word_so_far`
spells the path. -/
structure Inv (b : BoggleBoard) : Prop where
  hperm : b.cubes.Perm (List.range 16)
  hgrid : b.cube_grid = buildGrid b.cubes
  hloc : b.locations = buildLocations (buildGrid b.cubes)
  hlen : b.cubeData.length = 16
  hmem : ∀ id ∈ b.selected_cubes, id < 16
  hnd : b.selected_cubes.Nodup
  hstatus : ∀ id, id < 16 →
    (b.cubeData.getD id defaultCube).status = statusSpec b.selected_cubes id
  hword : b.word_so_far = pathWord b.cubeData b.selected_cubes

theorem inv_reset_word (b : BoggleBoard) (hb1 : b.cubes.Perm (List.range 16))
    (hb2 : b.cube_grid = buildGrid b.cubes)
    (hb3 : b.locations = buildLocations (buildGrid b.cubes))
    (hb4 : b.cubeData.length = 16) : Inv (reset_word b) := by
  refine ⟨hb1, hb2, hb3, ?_, ?_, ?_, ?_, ?_⟩
  · show (b.cubes.foldl (fun h id => setStatus h id Status.unselected) b.cubeData).length = 16
    rw [unselectFold_length, hb4]
  · intro id hmemid
    exact absurd hmemid (List.not_mem_nil id)
  · show List.Nodup []
    exact List.nodup_nil
  · intro id hid
    show ((b.cubes.foldl (fun h id => setStatus h id Status.unselected)
        b.cubeData).getD id defaultCube).status = statusSpec [] id
    rw [statusSpec_not_mem _ _ (by simp)]
    exact unselectFold_status_mem _ _ _ (hb4 ▸ hid)
      (hb1.mem_iff.mpr (List.mem_range.mpr hid))
  · rfl

theorem inv_report_selection (b : BoggleBoard) (hb : Inv b) (cube_id : Nat) :
    Inv (report_selection b cube_id) := by
  cases hl : b.locations cube_id with
  | none =>
    simp only [report_selection, hl]
    exact hb
  | some rc =>
    obtain ⟨row, col⟩ := rc
    have hperm := hb.hperm
    have hl' : buildLocations (buildGrid b.cubes) cube_id = some (row, col) := by
      rw [← hb.hloc]; exact hl
    have hid16 : cube_id < 16 := lt_16_of_lookup _ hperm hl'
    have hcurrb : get_cube b row col = cube_id := by
      rw [get_cube, hb.hgrid]; exact gridAt_of_lookup _ hperm hl'
    simp only [report_selection, hl, hcurrb]
    by_cases hsel : b.selected_cubes = []
    · rw [if_pos hsel]
      refine ⟨hperm, hb.hgrid, hb.hloc, ?_, ?_, ?_, ?_, ?_⟩
      · show (setStatus b.cubeData cube_id Status.mostRecentlySelected).length = 16
        rw [setStatus_length, hb.hlen]
      · intro id hmemid
        rw [hsel] at hmemid
        simp at hmemid
        exact hmemid ▸ hid16
      · rw [hsel]
        simp
      · intro j hj
        show ((setStatus b.cubeData cube_id Status.mostRecentlySelected).getD j
            defaultCube).status = statusSpec (b.selected_cubes ++ [cube_id]) j
        rw [setStatus_status _ _ _ _ (hb.hlen ▸ hid16), hsel]
        by_cases hji : cube_id = j
        · rw [if_pos hji, ← hji, statusSpec_getLast _ _ (by simp)]
        · rw [if_neg hji, hb.hstatus j hj, hsel,
            statusSpec_not_mem _ _ (List.not_mem_nil j),
            statusSpec_not_mem _ _ (by
              simp only [List.nil_append, List.mem_singleton]
              exact fun hc => hji hc.symm)]
      · show b.word_so_far ++ (b.cubeData.getD cube_id defaultCube).letter
          = pathWord (setStatus b.cubeData cube_id Status.mostRecentlySelected)
              (b.selected_cubes ++ [cube_id])
        rw [hb.hword, hsel]
        show "" ++ (b.cubeData.getD cube_id defaultCube).letter
          = pathWord (setStatus b.cubeData cube_id Status.mostRecentlySelected) [cube_id]
        show "" ++ (b.cubeData.getD cube_id defaultCube).letter
          = "" ++ ((setStatus b.cubeData cube_id Status.mostRecentlySelected).getD cube_id
              defaultCube).letter
        rw [setStatus_letter]
    · rw [if_neg hsel]
      by_cases hun : (b.cubeData.getD cube_id defaultCube).status = Status.unselected
      · rw [if_pos hun]
        obtain ⟨last, hlast⟩ :=
          Option.isSome_iff_exists.mp (List.getLast?_isSome.mpr hsel)
        simp only [hlast]
        have hlastmem : last ∈ b.selected_cubes := getLast?_mem hlast
        have hlast16 : last < 16 := hb.hmem last hlastmem
        obtain ⟨pr, pc, hpr, hpc, hploc, hpgrid⟩ := locations_of_lt _ hperm last hlast16
        have hploc' : b.locations last = some (pr, pc) := by rw [hb.hloc]; exact hploc
        simp only [hploc']
        have hprev : get_cube b pr pc = last := by rw [get_cube, hb.hgrid]; exact hpgrid
        simp only [hprev]
        have hnotmem : cube_id ∉ b.selected_cubes := fun hc =>
          statusSpec_mem_ne _ _ hc ((hb.hstatus cube_id hid16).symm.trans hun)
        have hne : cube_id ≠ last := fun hc => hnotmem (hc ▸ hlastmem)
        by_cases hadj : adjacent b cube_id last
        · rw [if_pos hadj]
          refine ⟨hperm, hb.hgrid, hb.hloc, ?_, ?_, ?_, ?_, ?_⟩
          · show (setStatus (setStatus b.cubeData cube_id Status.mostRecentlySelected)
                last Status.selected).length = 16
            rw [setStatus_length, setStatus_length, hb.hlen]
          · intro j hj
            rcases List.mem_append.mp hj with h1 | h1
            · exact hb.hmem j h1
            · rw [List.mem_singleton.mp h1]
              exact hid16
          · simp [List.nodup_append, hb.hnd, hnotmem]
          · intro j hj
            show ((setStatus (setStatus b.cubeData cube_id Status.mostRecentlySelected)
                last Status.selected).getD j defaultCube).status
              = statusSpec (b.selected_cubes ++ [cube_id]) j
            rw [setStatus_status _ _ _ _
              (by rw [setStatus_length]; exact hb.hlen ▸ hlast16)]
            by_cases hjl : last = j
            · rw [if_pos hjl, statusSpec, List.getLast?_concat,
                if_neg (fun hc => hne ((Option.some.inj hc).trans hjl.symm)),
                List.dropLast_concat, if_pos (hjl ▸ hlastmem)]
            · rw [if_neg hjl,
                setStatus_status _ _ _ _ (hb.hlen ▸ hid16)]
              by_cases hjc : cube_id = j
              · rw [if_pos hjc, ← hjc,
                  statusSpec_getLast _ _ (List.getLast?_concat _)]
              · rw [if_neg hjc, hb.hstatus j hj, statusSpec, statusSpec,
                  List.getLast?_concat, List.dropLast_concat,
                  if_neg (fun hc => hjc (Option.some.inj hc))]
                by_cases hjlast : b.selected_cubes.getLast? = some j
                · exact absurd (Option.some.inj ((hlast.symm.trans hjlast))) hjl
                · rw [if_neg hjlast]
                  by_cases hjd : j ∈ b.selected_cubes.dropLast
                  · rw [if_pos hjd,
                      if_pos ((mem_iff_dropLast_or_getLast _ _).mpr (Or.inl hjd))]
                  · rw [if_neg hjd, if_neg (fun hc => ?_)]
                    rcases (mem_iff_dropLast_or_getLast _ _).mp hc with h1 | h1
                    · exact hjd h1
                    · exact hjlast h1
          · show b.word_so_far ++ (b.cubeData.getD cube_id defaultCube).letter
              = pathWord (setStatus (setStatus b.cubeData cube_id
                  Status.mostRecentlySelected) last Status.selected)
                (b.selected_cubes ++ [cube_id])
            rw [pathWord_concat, hb.hword]
            congr 1
            · refine (pathWord_congr _ _ _ (fun id _ => ?_)).symm
              rw [setStatus_letter, setStatus_letter]
            · rw [setStatus_letter, setStatus_letter]
        · rw [if_neg hadj]
          exact hb
      · rw [if_neg hun]
        by_cases hmrs : (b.cubeData.getD cube_id defaultCube).status
            = Status.mostRecentlySelected
        · rw [if_pos hmrs]
          by_cases hwl : b.word_so_far ∈ b.lexicon
          · rw [if_pos hwl]
            exact inv_reset_word _ hperm hb.hgrid hb.hloc hb.hlen
          · rw [if_neg hwl]
            exact inv_reset_word _ hperm hb.hgrid hb.hloc hb.hlen
        · rw [if_neg hmrs]
          exact hb

theorem inv_applyOp (b : BoggleBoard) (hb : Inv b) (op : Op) : Inv (applyOp b op) := by
  cases op with
  | sel id => exact inv_report_selection b hb id
  | reset => exact inv_reset_word b hb.hperm hb.hgrid hb.hloc hb.hlen

theorem inv_runOps (b : BoggleBoard) (hb : Inv b) (ops : List Op) : Inv (runOps b ops) := by
  induction ops generalizing b with
  | nil => exact hb
  | cons op ops ih => exact ih _ (inv_applyOp b hb op)

set_option maxRecDepth 8000 in
theorem inv_boggleBoard (lex : List String) : Inv (boggleBoard lex) := by
  refine ⟨List.Perm.refl _, rfl, rfl, rfl, ?_, ?_, ?_, ?_⟩
  · intro id hmemid
    exact absurd hmemid (List.not_mem_nil id)
  · exact List.nodup_nil
  · intro id hid
    rw [statusSpec_not_mem ((boggleBoard lex).selected_cubes) id (List.not_mem_nil id)]
    interval_cases id <;> rfl
  · rfl

theorem inv_shake_cubes (lex : List String) (s : Shuffler) (d : Die)
    (hs : (Shuffler.shuffle s (List.range 16)).Perm (List.range 16)) :
    Inv (shake_cubes s d (boggleBoard lex)) := by
  have h0 := inv_boggleBoard lex
  refine ⟨hs, rfl, rfl, ?_, ?_, ?_, ?_, ?_⟩
  · show (rollCubesFrom d 0 _ _).length = 16
    rw [rollCubesFrom_length]
    exact h0.hlen
  · intro id hmemid
    exact absurd hmemid (List.not_mem_nil id)
  · exact List.nodup_nil
  · intro id hid
    show ((rollCubesFrom d 0 (Shuffler.shuffle s (List.range 16))
        (boggleBoard lex).cubeData).getD id defaultCube).status = statusSpec [] id
    rw [rollCubesFrom_status, statusSpec_not_mem [] id (List.not_mem_nil id),
      h0.hstatus id hid,
      statusSpec_not_mem ((boggleBoard lex).selected_cubes) id (List.not_mem_nil id)]
  · rfl

/-! ## Further helpers for the claims -/

theorem statusSpec_eq_mrs_iff (p : List Nat) (i : Nat) :
    statusSpec p i = Status.mostRecentlySelected ↔ p.getLast? = some i := by
  rw [statusSpec]
  constructor
  · intro h
    by_contra hc
    rw [if_neg hc] at h
    split at h <;> simp at h
  · intro h
    rw [if_pos h]

theorem reset_word_status (b : BoggleBoard) (hperm : b.cubes.Perm (List.range 16))
    (id : Nat) (hid : id < 16) :
    ((reset_word b).cubeData.getD id defaultCube).status = Status.unselected := by
  show ((b.cubes.foldl (fun h id => setStatus h id Status.unselected) b.cubeData).getD id
      defaultCube).status = Status.unselected
  by_cases hlt : id < b.cubeData.length
  · exact unselectFold_status_mem _ _ _ hlt (hperm.mem_iff.mpr (List.mem_range.mpr hid))
  · rw [List.getD_eq_getElem?_getD,
      List.getElem?_eq_none (by rw [unselectFold_length]; omega)]
    rfl

/-- Python's `str.upper` restricted to the ASCII strings that occur on cube
faces and in lexica. -/
def strUpper (s : String) : String :=
  String.mk (s.data.map Char.toUpper)

/-! ## Claims -/

/-- C3: for every pair of cubes placed on the board, `adjacent` returns true
iff the Chebyshev distance of their grid positions is exactly 1; `adjacent`
is symmetric, and a cube is never adjacent to itself. -/
theorem C3_adjacent_chebyshev (b : BoggleBoard) (idA idB rA cA rB cB : Nat)
    (hA : b.locations idA = some (rA, cA)) (hB : b.locations idB = some (rB, cB)) :
    (adjacent b idA idB = true ↔ chebyshevDist (rA, cA) (rB, cB) = 1) ∧
    adjacent b idA idB = adjacent b idB idA ∧
    adjacent b idA idA = false := by
  refine ⟨?_, ?_, ?_⟩
  · simp only [adjacent, hA, hB, chebyshevDist, Bool.or_eq_true, Bool.and_eq_true,
      beq_iff_eq]
    omega
  · simp only [adjacent, hA, hB]
    rw [Bool.eq_iff_iff]
    simp only [Bool.or_eq_true, Bool.and_eq_true, beq_iff_eq]
    omega
  · cases hval : adjacent b idA idA
    · rfl
    · exfalso
      simp only [adjacent, hA, Bool.or_eq_true, Bool.and_eq_true, beq_iff_eq] at hval
      omega

set_option maxRecDepth 8000 in
/-- C3 witness: cubes 0 and 1 of a fresh board sit at (0,0) and (0,1). -/
theorem C3_adjacent_chebyshev_witness :
    (boggleBoard []).locations 0 = some (0, 0) ∧
    ((adjacent (boggleBoard []) 0 1 = true ↔ chebyshevDist (0, 0) (0, 1) = 1) ∧
      adjacent (boggleBoard []) 0 1 = adjacent (boggleBoard []) 1 0 ∧
      adjacent (boggleBoard []) 0 0 = false) :=
  ⟨rfl, C3_adjacent_chebyshev (boggleBoard []) 0 1 0 0 0 1 rfl rfl⟩

/-- C9: `reset_word` empties the path and the word and unselects every cube on
the board, while leaving completed words, the dictionary, the grid, the
location index, the cube order, and every cube's letter and faces unchanged. -/
theorem C9_reset_word_frame (b : BoggleBoard) :
    (reset_word b).word_so_far = "" ∧
    (reset_word b).selected_cubes = [] ∧
    (∀ id ∈ b.cubes,
      ((reset_word b).cubeData.getD id defaultCube).status = Status.unselected) ∧
    (reset_word b).completed_words = b.completed_words ∧
    (reset_word b).lexicon = b.lexicon ∧
    (reset_word b).cube_grid = b.cube_grid ∧
    (reset_word b).locations = b.locations ∧
    (reset_word b).cubes = b.cubes ∧
    (∀ id, ((reset_word b).cubeData.getD id defaultCube).letter
        = (b.cubeData.getD id defaultCube).letter ∧
      ((reset_word b).cubeData.getD id defaultCube).faces
        = (b.cubeData.getD id defaultCube).faces) := by
  refine ⟨rfl, rfl, ?_, rfl, rfl, rfl, rfl, rfl, ?_⟩
  · intro id hmemid
    show ((b.cubes.foldl (fun h id => setStatus h id Status.unselected) b.cubeData).getD id
        defaultCube).status = Status.unselected
    by_cases hlt : id < b.cubeData.length
    · exact unselectFold_status_mem _ _ _ hlt hmemid
    · rw [List.getD_eq_getElem?_getD,
        List.getElem?_eq_none (by rw [unselectFold_length]; omega)]
      rfl
  · intro id
    exact ⟨unselectFold_letter _ _ _, unselectFold_faces _ _ _⟩

set_option maxRecDepth 8000 in
/-- C9 witness on a fresh board and cube 5. -/
theorem C9_reset_word_frame_witness :
    (reset_word (boggleBoard [])).word_so_far = "" ∧
    ((reset_word (boggleBoard [])).cubeData.getD 5 defaultCube).status
      = Status.unselected :=
  ⟨(C9_reset_word_frame (boggleBoard [])).1,
   (C9_reset_word_frame (boggleBoard [])).2.2.1 5 (by decide)⟩

set_option maxRecDepth 8000 in
/-- C10: before any shake, cube `4*row+col` is at `(row, col)`, every cube
shows face 0, and in particular (0,0) shows "A" and (3,3) shows "G". -/
theorem C10_fresh_board (lex : List String) (r c : Nat) (hr : r < 4) (hc : c < 4) :
    get_cube (boggleBoard lex) r c = 4 * r + c ∧
    (boggleBoard lex).locations (4 * r + c) = some (r, c) ∧
    ((boggleBoard lex).cubeData.getD (4 * r + c) defaultCube).letter
      = (CUBE_FACES.getD (4 * r + c) []).getD 0 "" ∧
    ((boggleBoard lex).cubeData.getD (get_cube (boggleBoard lex) 0 0) defaultCube).letter
      = "A" ∧
    ((boggleBoard lex).cubeData.getD (get_cube (boggleBoard lex) 3 3) defaultCube).letter
      = "G" := by
  interval_cases r <;> interval_cases c <;> exact ⟨rfl, rfl, rfl, rfl, rfl⟩

set_option maxRecDepth 8000 in
/-- C10 witness at (1, 2). -/
theorem C10_fresh_board_witness :
    (1 : Nat) < 4 ∧ (2 : Nat) < 4 ∧ get_cube (boggleBoard []) 1 2 = 4 * 1 + 2 :=
  ⟨by decide, by decide, (C10_fresh_board [] 1 2 (by decide) (by decide)).1⟩

/-- C8: every shuffler variant returns a list with exactly the input's
elements: the production variant (`random.shuffle`, modelled as an arbitrary
index permutation) yields a permutation, the predictable variant yields the
exact reversal, and the non-shuffler yields the input order; none of them can
mutate the input, the embedding being pure. -/
theorem C8_shuffler_contract {α : Type} [Inhabited α] (xs : List α) (rp : List Nat)
    (hrp : rp.Perm (List.range xs.length)) :
    (Shuffler.shuffle (Shuffler.randomShuffler rp) xs).Perm xs ∧
    Shuffler.shuffle Shuffler.predictableShuffler xs = xs.reverse ∧
    Shuffler.shuffle Shuffler.nonShuffler xs = xs ∧
    (Shuffler.shuffle Shuffler.predictableShuffler xs).Perm xs ∧
    (Shuffler.shuffle Shuffler.nonShuffler xs).Perm xs := by
  refine ⟨?_, rfl, rfl, List.reverse_perm xs, List.Perm.refl xs⟩
  show (rp.map fun i => xs.getD i default).Perm xs
  have h1 := List.Perm.map (fun i => xs.getD i default) hrp
  rw [getD_range_map xs default] at h1
  exact h1

/-- C8 witness on a three-element list and a concrete index permutation. -/
theorem C8_shuffler_contract_witness :
    ([2, 0, 1] : List Nat).Perm (List.range 3) ∧
    (Shuffler.shuffle (Shuffler.randomShuffler [2, 0, 1]) [10, 20, 30]).Perm
      ([10, 20, 30] : List Nat) :=
  ⟨by decide, (C8_shuffler_contract [10, 20, 30] [2, 0, 1] (by decide)).1⟩

/-- The board of the `report_selection` doctest: standard faces, reversed
cube order, every cube rolled to face 4, lexicon {GET, PUT, APT}. -/
def putBoard : BoggleBoard :=
  shake_cubes Shuffler.predictableShuffler (Die.predictableDie 4)
    (boggleBoard ["GET", "PUT", "APT"])

set_option maxRecDepth 8000 in
/-- C5: on the deterministically shaken board, selecting 13, 12, 9 spells
"PUT" through adjacent cubes, and re-selecting 9 commits it and clears the
word. -/
theorem C5_put_scenario :
    adjacent putBoard 13 12 = true ∧
    adjacent putBoard 12 9 = true ∧
    (runOps putBoard [Op.sel 13, Op.sel 12, Op.sel 9]).word_so_far = "PUT" ∧
    "PUT" ∈ putBoard.lexicon ∧
    (runOps putBoard [Op.sel 13, Op.sel 12, Op.sel 9, Op.sel 9]).completed_words
      = ["PUT"] ∧
    (runOps putBoard [Op.sel 13, Op.sel 12, Op.sel 9, Op.sel 9]).word_so_far = "" := by
  refine ⟨rfl, rfl, by decide, by decide, by decide, by decide⟩

/-- C4: when the selected cube is the head of a non-empty path, the call ends
with a full reset: empty path, empty word, all sixteen cubes unselected —
whatever the word's validity. -/
theorem C4_finalize_resets (b : BoggleBoard) (cube_id row col : Nat)
    (hperm : b.cubes.Perm (List.range 16))
    (hloc : b.locations cube_id = some (row, col))
    (hne : b.selected_cubes ≠ [])
    (hmrs : (b.cubeData.getD (get_cube b row col) defaultCube).status
      = Status.mostRecentlySelected) :
    (report_selection b cube_id).selected_cubes = [] ∧
    (report_selection b cube_id).word_so_far = "" ∧
    (∀ id, id < 16 →
      ((report_selection b cube_id).cubeData.getD id defaultCube).status
        = Status.unselected) := by
  simp only [report_selection, hloc]
  rw [if_neg hne, if_neg (by rw [hmrs]; simp), if_pos hmrs]
  by_cases hwl : b.word_so_far ∈ b.lexicon
  · rw [if_pos hwl]
    exact ⟨rfl, rfl, fun id hid => reset_word_status _ hperm id hid⟩
  · rw [if_neg hwl]
    exact ⟨rfl, rfl, fun id hid => reset_word_status _ hperm id hid⟩

set_option maxRecDepth 8000 in
/-- C4 witness: finalizing the one-cube path [0] on a fresh board. -/
theorem C4_finalize_resets_witness :
    (report_selection (boggleBoard []) 0).selected_cubes ≠ [] ∧
    (report_selection (report_selection (boggleBoard []) 0) 0).selected_cubes = [] ∧
    (report_selection (report_selection (boggleBoard []) 0) 0).word_so_far = "" :=
  ⟨by decide,
   (C4_finalize_resets (report_selection (boggleBoard []) 0) 0 0 0
      (by decide) rfl (by decide) (by decide)).1,
   (C4_finalize_resets (report_selection (boggleBoard []) 0) 0 0 0
      (by decide) rfl (by decide) (by decide)).2.1⟩

/-- C1 (amended): finalizing on the path head appends `word_so_far` to the end
of `completed_words` exactly when `word_so_far` itself — not uppercased — is
in the dictionary. -/
theorem C1_finalize_append (b : BoggleBoard) (cube_id row col : Nat)
    (hloc : b.locations cube_id = some (row, col))
    (hne : b.selected_cubes ≠ [])
    (hmrs : (b.cubeData.getD (get_cube b row col) defaultCube).status
      = Status.mostRecentlySelected) :
    (report_selection b cube_id).completed_words
      = if b.word_so_far ∈ b.lexicon then b.completed_words ++ [b.word_so_far]
        else b.completed_words := by
  simp only [report_selection, hloc]
  rw [if_neg hne, if_neg (by rw [hmrs]; simp), if_pos hmrs]
  by_cases hwl : b.word_so_far ∈ b.lexicon
  · rw [if_pos hwl, if_pos hwl]
    rfl
  · rw [if_neg hwl, if_neg hwl]
    rfl

/-- The board of the C1 counterexample: unshuffled cubes all rolled to face 3,
so cube 2 (at position (0, 2)) shows the two-letter face "Qu"; the lexicon
holds the uppercase word "QU", and cube 2 has been selected once. -/
def quBoard : BoggleBoard :=
  report_selection
    (shake_cubes Shuffler.nonShuffler (Die.predictableDie 3) (boggleBoard ["QU"])) 2

set_option maxRecDepth 8000 in
/-- C1 counterexample: the path head has status most-recently-selected and the
uppercased `word_so_far` ("QU") is in the dictionary, yet re-selecting the
head appends nothing to `completed_words` — the source checks `word_so_far`
without uppercasing, and "Qu" is not in the dictionary. -/
theorem C1_counterexample :
    (quBoard.cubeData.getD 2 defaultCube).status = Status.mostRecentlySelected ∧
    quBoard.selected_cubes = [2] ∧
    quBoard.word_so_far = "Qu" ∧
    strUpper quBoard.word_so_far ∈ quBoard.lexicon ∧
    quBoard.word_so_far ∉ quBoard.lexicon ∧
    (report_selection quBoard 2).completed_words = quBoard.completed_words ∧
    (report_selection quBoard 2).completed_words = [] := by
  refine ⟨by decide, by decide, by decide, by decide, by decide, by decide, by decide⟩

set_option maxRecDepth 8000 in
/-- C1 (amended) witness: committing "PUT" on the doctest board. -/
theorem C1_finalize_append_witness :
    (report_selection (runOps putBoard [Op.sel 13, Op.sel 12, Op.sel 9]) 9).completed_words
      = if (runOps putBoard [Op.sel 13, Op.sel 12, Op.sel 9]).word_so_far
            ∈ (runOps putBoard [Op.sel 13, Op.sel 12, Op.sel 9]).lexicon
        then (runOps putBoard [Op.sel 13, Op.sel 12, Op.sel 9]).completed_words
            ++ [(runOps putBoard [Op.sel 13, Op.sel 12, Op.sel 9]).word_so_far]
        else (runOps putBoard [Op.sel 13, Op.sel 12, Op.sel 9]).completed_words :=
  C1_finalize_append (runOps putBoard [Op.sel 13, Op.sel 12, Op.sel 9]) 9 1 2
    (by decide) (by decide) (by decide)

/-- C7: with a non-empty path, selecting an unselected cube that is not
adjacent to the path's last cube, or re-selecting a mid-path (selected) cube,
leaves the whole board unchanged. -/
theorem C7_invalid_selection_noop (b : BoggleBoard)
    (cube_id row col prev_id pr pc : Nat)
    (hne : b.selected_cubes ≠ [])
    (hloc : b.locations cube_id = some (row, col))
    (hlast : b.selected_cubes.getLast? = some prev_id)
    (hploc : b.locations prev_id = some (pr, pc))
    (hcase :
      ((b.cubeData.getD (get_cube b row col) defaultCube).status = Status.unselected ∧
        adjacent b (get_cube b row col) (get_cube b pr pc) = false) ∨
      (b.cubeData.getD (get_cube b row col) defaultCube).status = Status.selected) :
    report_selection b cube_id = b := by
  simp only [report_selection, hloc]
  rw [if_neg hne]
  rcases hcase with ⟨hun, hadj⟩ | hsel
  · rw [if_pos hun]
    simp only [hlast, hploc]
    rw [if_neg (by simp [hadj])]
  · rw [if_neg (by rw [hsel]; simp), if_neg (by rw [hsel]; simp)]

set_option maxRecDepth 8000 in
/-- C7 witness: on a fresh board with path [0], cube 2 at (0,2) is unselected
and not adjacent to cube 0 at (0,0); selecting it is a no-op. -/
theorem C7_invalid_selection_noop_witness :
    (report_selection (boggleBoard []) 0).selected_cubes ≠ [] ∧
    report_selection (report_selection (boggleBoard []) 0) 2
      = report_selection (boggleBoard []) 0 :=
  ⟨by decide,
   C7_invalid_selection_noop (report_selection (boggleBoard []) 0) 2 0 2 0 0 0
     (by decide) rfl (by decide) rfl (Or.inl ⟨by decide, by decide⟩)⟩

/-- C2: after any command sequence from a fresh or freshly shaken board, at
most one cube is most-recently-selected; a cube has that status exactly when
the path is non-empty and the cube is its last element; and `word_so_far` is
the concatenation, in order, of the letters of the path's cubes. -/
theorem C2_selection_invariant (lex : List String) (s : Shuffler) (d : Die)
    (start : BoggleBoard) (ops : List Op)
    (hstart : start = boggleBoard lex ∨ start = shake_cubes s d (boggleBoard lex))
    (hs : (Shuffler.shuffle s (List.range 16)).Perm (List.range 16)) :
    (∀ i, i < 16 → ∀ j, j < 16 →
      ((runOps start ops).cubeData.getD i defaultCube).status
        = Status.mostRecentlySelected →
      ((runOps start ops).cubeData.getD j defaultCube).status
        = Status.mostRecentlySelected →
      i = j) ∧
    (∀ i, i < 16 →
      (((runOps start ops).cubeData.getD i defaultCube).status
          = Status.mostRecentlySelected ↔
        ((runOps start ops).selected_cubes ≠ [] ∧
          (runOps start ops).selected_cubes.getLast? = some i))) ∧
    (runOps start ops).word_so_far
      = String.join ((runOps start ops).selected_cubes.map
          fun id => ((runOps start ops).cubeData.getD id defaultCube).letter) := by
  have hinv : Inv (runOps start ops) := by
    rcases hstart with rfl | rfl
    · exact inv_runOps _ (inv_boggleBoard lex) ops
    · exact inv_runOps _ (inv_shake_cubes lex s d hs) ops
  have hiff : ∀ i, i < 16 →
      (((runOps start ops).cubeData.getD i defaultCube).status
          = Status.mostRecentlySelected ↔
        ((runOps start ops).selected_cubes ≠ [] ∧
          (runOps start ops).selected_cubes.getLast? = some i)) := by
    intro i hi
    rw [hinv.hstatus i hi, statusSpec_eq_mrs_iff]
    constructor
    · intro h
      refine ⟨?_, h⟩
      intro hc
      rw [hc] at h
      simp at h
    · exact fun h => h.2
  refine ⟨?_, hiff, ?_⟩
  · intro i hi j hj hsi hsj
    have h1 := ((hiff i hi).mp hsi).2
    have h2 := ((hiff j hj).mp hsj).2
    exact Option.some.inj (h1.symm.trans h2)
  · rw [hinv.hword, pathWord_eq_join]

set_option maxRecDepth 8000 in
/-- C2 witness: one selection on a fresh board (the non-shuffler keeps the
id order, so its shuffle of range 16 is trivially a permutation). -/
theorem C2_selection_invariant_witness :
    (Shuffler.shuffle Shuffler.nonShuffler (List.range 16)).Perm (List.range 16) ∧
    (runOps (boggleBoard []) [Op.sel 0]).word_so_far
      = String.join ((runOps (boggleBoard []) [Op.sel 0]).selected_cubes.map
          fun id => ((runOps (boggleBoard []) [Op.sel 0]).cubeData.getD id
            defaultCube).letter) :=
  ⟨List.Perm.refl _,
   (C2_selection_invariant [] Shuffler.nonShuffler (Die.predictableDie 4)
      (boggleBoard []) [Op.sel 0] (Or.inl rfl) (List.Perm.refl _)).2.2⟩

/-- C6: `shake_cubes` is the shuffle, followed by the grid-and-locations
rebuild from the new order, followed by the per-cube rolls; afterwards the
grid and the location index are mutually consistent, and the cube in position
`k` of the new order shows the face picked by the `k`-th die roll. -/
theorem C6_shake_structure (b : BoggleBoard) (s : Shuffler) (d : Die)
    (hs : (Shuffler.shuffle s b.cubes).Perm (List.range 16))
    (hlen : b.cubeData.length = 16) :
    shake_cubes s d b
      = { update_grid_locations { b with cubes := Shuffler.shuffle s b.cubes } with
          cubeData := rollCubesFrom d 0 (Shuffler.shuffle s b.cubes) b.cubeData } ∧
    (shake_cubes s d b).cubes = Shuffler.shuffle s b.cubes ∧
    (shake_cubes s d b).cube_grid = buildGrid (Shuffler.shuffle s b.cubes) ∧
    (∀ id r c, (shake_cubes s d b).locations id = some (r, c) ↔
      (r < 4 ∧ c < 4 ∧ gridAt (shake_cubes s d b).cube_grid r c = id)) ∧
    (∀ k, k < 16 →
      ((shake_cubes s d b).cubeData.getD
          ((shake_cubes s d b).cubes.getD k 0) defaultCube).letter
        = ((b.cubeData.getD ((shake_cubes s d b).cubes.getD k 0) defaultCube).faces).getD
            (Die.roll d k) "") := by
  have hlength : (Shuffler.shuffle s b.cubes).length = 16 := by simpa using hs.length_eq
  have hnd : (Shuffler.shuffle s b.cubes).Nodup := hs.nodup_iff.mpr (List.nodup_range 16)
  refine ⟨rfl, rfl, rfl, ?_, ?_⟩
  · intro id r c
    show buildLocations (buildGrid (Shuffler.shuffle s b.cubes)) id = some (r, c) ↔ _
    rw [buildLocations_lookup _ hs]
    constructor
    · rintro ⟨hr, hc, hid⟩
      refine ⟨hr, hc, ?_⟩
      show gridAt (buildGrid (Shuffler.shuffle s b.cubes)) r c = id
      rw [gridAt_buildGrid _ _ _ hr hc]
      exact hid
    · rintro ⟨hr, hc, hid⟩
      refine ⟨hr, hc, ?_⟩
      rw [← gridAt_buildGrid _ _ _ hr hc]
      exact hid
  · intro k hk
    have hk' : k < (Shuffler.shuffle s b.cubes).length := by omega
    have hmem : (Shuffler.shuffle s b.cubes).getD k 0 ∈ Shuffler.shuffle s b.cubes := by
      rw [List.getD_eq_getElem _ _ hk']
      exact List.getElem_mem hk'
    have hlt : (Shuffler.shuffle s b.cubes).getD k 0 < b.cubeData.length := by
      rw [hlen]
      exact List.mem_range.mp (hs.mem_iff.mp hmem)
    have hmain := rollCubesFrom_letter d (Shuffler.shuffle s b.cubes) hnd 0 b.cubeData k hk' hlt
    rw [Nat.zero_add] at hmain
    show ((rollCubesFrom d 0 (Shuffler.shuffle s b.cubes) b.cubeData).getD
        ((Shuffler.shuffle s b.cubes).getD k 0) defaultCube).letter
      = ((b.cubeData.getD ((Shuffler.shuffle s b.cubes).getD k 0) defaultCube).faces).getD
          (Die.roll d k) ""
    exact hmain

set_option maxRecDepth 8000 in
/-- C6 witness: reversed shuffle and the constant die on a fresh board; the
first cube of the new order (cube 15) shows its face 4, "U". -/
theorem C6_shake_structure_witness :
    (Shuffler.shuffle Shuffler.predictableShuffler (boggleBoard []).cubes).Perm
      (List.range 16) ∧
    ((shake_cubes Shuffler.predictableShuffler (Die.predictableDie 4)
        (boggleBoard [])).cubeData.getD
      ((shake_cubes Shuffler.predictableShuffler (Die.predictableDie 4)
        (boggleBoard [])).cubes.getD 0 0) defaultCube).letter
      = (((boggleBoard []).cubeData.getD
          ((shake_cubes Shuffler.predictableShuffler (Die.predictableDie 4)
            (boggleBoard [])).cubes.getD 0 0) defaultCube).faces).getD
          (Die.roll (Die.predictableDie 4) 0) "" :=
  ⟨by decide,
   (C6_shake_structure (boggleBoard []) Shuffler.predictableShuffler
      (Die.predictableDie 4) (by decide) (by decide)).2.2.2.2 0 (by decide)⟩

end Boggle
